import Mathlib

/-!
Shallow embedding of the `Brain` repository's layout generator
(`generateBrainNetwork` in `src/components/BrainVisualization.tsx`) and of the
search submission flow (`searchWithOllama` in the home page component).

JavaScript numbers are modelled as real numbers.  Every call to
`Math.random()` is modelled as reading the next value of an ambient stream
`rand : ℕ → ℝ`; a valid stream has all values in `[0, 1)`.  The stream index
is threaded explicitly through the generation pass, so the n-th draw of the
source corresponds to the n-th stream value.
-/

set_option linter.unusedVariables false

namespace Brain

/-- The ambient randomness: one value per `Math.random()` call, in call order. -/
structure Env where
  rand : ℕ → ℝ

/-- `Math.random()` always returns a value in `[0, 1)`. -/
def Env.Valid (e : Env) : Prop := ∀ n, 0 ≤ e.rand n ∧ e.rand n < 1

/-- The `type` field of `BrainNode` (`'main' | 'secondary' | 'connection'`). -/
inductive NodeType where
  | main
  | secondary
  | connection
deriving DecidableEq

/-- `BrainNode` from `src/types/index.ts`.  The write-only `connections`
array (mutated by `push` during edge creation and read by nothing that is
modelled here) is omitted. -/
structure BrainNode where
  id : String
  label : Option String
  type : NodeType
  x : ℝ
  y : ℝ
  radius : ℝ

/-- `BrainConnection` from `src/types/index.ts`. -/
structure BrainConnection where
  source : String
  target : String
  strength : ℝ

/-- One entry of the `brainRegions` array. -/
structure Region where
  centerX : ℝ
  centerY : ℝ
  size : ℝ

/-- The `brainRegions` array: left lobe, right lobe, front lobe, back lobe,
upper left, upper right. -/
noncomputable def brainRegions (width height : ℝ) : List Region :=
  [⟨width * 0.35, height * 0.3, 0.22⟩,
   ⟨width * 0.65, height * 0.3, 0.22⟩,
   ⟨width * 0.5, height * 0.25, 0.18⟩,
   ⟨width * 0.5, height * 0.4, 0.16⟩,
   ⟨width * 0.4, height * 0.2, 0.14⟩,
   ⟨width * 0.6, height * 0.2, 0.14⟩]

/-- The `centralNodes` array: `(id, label)` pairs, selected by `showLabels`. -/
def centralNodes (showLabels : Bool) : List (String × String) :=
  if showLabels then
    [("mobility", "Mobility"), ("funding", "Funding"),
     ("electric-vehicles", "Electric Vehicles"), ("startups", "Startups"),
     ("europe", "Europe")]
  else
    [("mobility", "Mobility"), ("funding", "Funding"), ("startups", "Startups"),
     ("technology", "Technology"), ("europe", "Europe")]

/-- `nodeCount = Math.min(180, Math.max(120, Math.floor((width * height) / 4000)))`. -/
noncomputable def nodeCount (width height : ℝ) : ℕ :=
  (min 180 (max 120 ⌊width * height / 4000⌋)).toNat

/-- Placement of the `i`-th central node (`centralNodes.forEach` body).
Consumes the three draws `k`, `k+1`, `k+2`: angle, distance, radius. -/
noncomputable def placeHub (width height : ℝ) (e : Env) (i : ℕ) (p : String × String)
    (k : ℕ) : BrainNode :=
  let region := (brainRegions width height).getD
    (i % (brainRegions width height).length) ⟨0, 0, 0⟩
  let angle := e.rand k * 2 * Real.pi
  let distance := e.rand (k + 1) * min width height * region.size * 0.3
  { id := p.1, label := some p.2, type := NodeType.main,
    x := region.centerX + Real.cos angle * distance,
    y := region.centerY + Real.sin angle * distance,
    radius := 12 + e.rand (k + 2) * 3 }

/-- The five hub nodes; hub `i` consumes draws `3*i .. 3*i+2`. -/
noncomputable def hubNodes (width height : ℝ) (e : Env) (showLabels : Bool) :
    List BrainNode :=
  (centralNodes showLabels).mapIdx fun i p => placeHub width height e i p (3 * i)

/-- Raw position of a non-hub node before the elliptical clamp: with
probability `0.7` inside a random region, otherwise on the segment between
two random regions plus noise.  Returns `(x, y, next draw index)`. -/
noncomputable def placeLoose (width height : ℝ) (e : Env) (k : ℕ) : ℝ × ℝ × ℕ :=
  if e.rand k > 0.3 then
    let region := (brainRegions width height).getD
      (⌊e.rand (k + 1) * ((brainRegions width height).length : ℝ)⌋).toNat ⟨0, 0, 0⟩
    let angle := e.rand (k + 2) * 2 * Real.pi
    let distance := e.rand (k + 3) * min width height * region.size * 0.8
    (region.centerX + Real.cos angle * distance,
     region.centerY + Real.sin angle * distance, k + 4)
  else
    let regionA := (brainRegions width height).getD
      (⌊e.rand (k + 1) * ((brainRegions width height).length : ℝ)⌋).toNat ⟨0, 0, 0⟩
    let regionB := (brainRegions width height).getD
      (⌊e.rand (k + 2) * ((brainRegions width height).length : ℝ)⌋).toNat ⟨0, 0, 0⟩
    let t := e.rand (k + 3)
    (regionA.centerX + t * (regionB.centerX - regionA.centerX) +
       (e.rand (k + 4) - 0.5) * 80,
     regionA.centerY + t * (regionB.centerY - regionA.centerY) +
       (e.rand (k + 5) - 0.5) * 80, k + 6)

/-- The "organic brain shape" clamp: if the position is outside the overall
ellipse, reflect it back along the radial direction to `0.95` of the boundary. -/
noncomputable def clampToEllipse (width height x0 y0 : ℝ) : ℝ × ℝ :=
  let centerX := width * 0.5
  let centerY := height * 0.3
  let maxRadiusX := width * 0.32
  let maxRadiusY := height * 0.25
  let normalizedX := (x0 - centerX) / maxRadiusX
  let normalizedY := (y0 - centerY) / maxRadiusY
  let distanceFromCenter :=
    Real.sqrt (normalizedX * normalizedX + normalizedY * normalizedY)
  if distanceFromCenter > 1 then
    (centerX + normalizedX / distanceFromCenter * maxRadiusX * 0.95,
     centerY + normalizedY / distanceFromCenter * maxRadiusY * 0.95)
  else (x0, y0)

/-- The normalized distance of a point to the configured overall elliptical
silhouette: center `(width*0.5, height*0.3)`, radii `(width*0.32,
height*0.25)`, exactly the quantities `clampToEllipse` computes. -/
noncomputable def ellipseNorm (width height x y : ℝ) : ℝ :=
  Real.sqrt ((x - width * 0.5) / (width * 0.32) * ((x - width * 0.5) / (width * 0.32))
    + (y - height * 0.3) / (height * 0.25) * ((y - height * 0.3) / (height * 0.25)))

/-- Body of the non-hub generation loop for index `i`: place, clamp, then draw
the radius (`k'`) and the type (`k'+1`).  Returns the node and the next draw
index. -/
noncomputable def mkLooseNode (width height : ℝ) (e : Env) (i k : ℕ) :
    BrainNode × ℕ :=
  let p := placeLoose width height e k
  let xy := clampToEllipse width height p.1 p.2.1
  ({ id := "node-" ++ toString i, label := none,
     type := if e.rand (p.2.2 + 1) > 0.85 then NodeType.secondary
             else NodeType.connection,
     x := xy.1, y := xy.2,
     radius := e.rand p.2.2 * 2 + 0.8 }, p.2.2 + 2)

/-- The non-hub loop `for (let i = centralNodes.length; i < nodeCount; i++)`,
with `n` remaining iterations, current index `i` and draw index `k`. -/
noncomputable def looseNodes (width height : ℝ) (e : Env) :
    ℕ → ℕ → ℕ → List BrainNode × ℕ
  | _, k, 0 => ([], k)
  | i, k, n + 1 =>
    let r := mkLooseNode width height e i k
    let rest := looseNodes width height e (i + 1) r.2 n
    (r.1 :: rest.1, rest.2)

/-- The full node-generation pass: hub nodes (15 draws), then the non-hub
loop.  Returns the node list and the next draw index. -/
noncomputable def generateNodes (width height : ℝ) (e : Env) (showLabels : Bool) :
    List BrainNode × ℕ :=
  let hubs := hubNodes width height e showLabels
  let loose := looseNodes width height e (centralNodes showLabels).length
    (3 * (centralNodes showLabels).length)
    (nodeCount width height - (centralNodes showLabels).length)
  (hubs ++ loose.1, loose.2)

/-- Euclidean distance between two nodes, as computed in the candidate map:
`Math.sqrt(Math.pow(node.x - target.x, 2) + Math.pow(node.y - target.y, 2))`. -/
noncomputable def nodeDist (a b : BrainNode) : ℝ :=
  Real.sqrt ((a.x - b.x) ^ 2 + (a.y - b.y) ^ 2)

/-- `connectionCount`: `Math.floor(Math.random() * 8 + 6)` for main nodes,
`Math.floor(Math.random() * 5 + 3)` for the others, on draw `k`. -/
noncomputable def connectionCount (e : Env) (k : ℕ) (t : NodeType) : ℕ :=
  if t = NodeType.main then (⌊e.rand k * 8 + 6⌋).toNat
  else (⌊e.rand k * 5 + 3⌋).toNat

/-- One entry of the `nearbyNodes` candidate array. -/
structure Candidate where
  node : BrainNode
  index : ℕ
  distance : ℝ

/-- The candidate array before sorting and truncation: every node with its
index and distance, the node itself (`item.index !== i`) excluded. -/
noncomputable def allCandidates (nodes : List BrainNode) (i : ℕ)
    (node : BrainNode) : List Candidate :=
  (nodes.enum.map fun p => Candidate.mk p.2 p.1 (nodeDist node p.2)).filter
    fun item => item.index != i

/-- `nearbyNodes`: all other nodes sorted by ascending distance
(`.sort((a, b) => a.distance - b.distance)`), truncated to twice the
connection count (`.slice(0, connectionCount * 2)`). -/
noncomputable def nearbyNodes (nodes : List BrainNode) (i : ℕ) (node : BrainNode)
    (cc : ℕ) : List Candidate :=
  ((allCandidates nodes i node).mergeSort
    fun a b => decide (a.distance ≤ b.distance)).take (cc * 2)

/-- The acceptance probability for candidate rank `j`:
`0.8` for main nodes, otherwise `0.7` when `j < connectionCount * 0.6`
and `0.4` beyond. -/
noncomputable def acceptProb (t : NodeType) (cc j : ℕ) : ℝ :=
  if t = NodeType.main then 0.8
  else if (j : ℝ) < (cc : ℝ) * 0.6 then 0.7 else 0.4

/-- The type-dependent distance ceiling `maxDistance`. -/
noncomputable def maxDistanceFor (width height : ℝ) (t : NodeType) : ℝ :=
  if t = NodeType.main then min width height * 0.4 else min width height * 0.2

/-- The inner connection loop over the first `min(connectionCount, length)`
candidates, rank `j`, one draw per iteration; an edge is recorded when the
draw is below the acceptance probability and the distance is below the
ceiling, with strength `max(0.2, 1 - distance / maxDistance)`. -/
noncomputable def connectLoop (width height : ℝ) (e : Env) (node : BrainNode)
    (cc : ℕ) : List Candidate → ℕ → ℕ → List BrainConnection × ℕ
  | [], _, k => ([], k)
  | c :: rest, j, k =>
    let probability := acceptProb node.type cc j
    if e.rand k < probability then
      if c.distance < maxDistanceFor width height node.type then
        let r := connectLoop width height e node cc rest (j + 1) (k + 1)
        (⟨node.id, c.node.id,
          max 0.2 (1 - c.distance / maxDistanceFor width height node.type)⟩ :: r.1,
         r.2)
      else connectLoop width height e node cc rest (j + 1) (k + 1)
    else connectLoop width height e node cc rest (j + 1) (k + 1)

/-- The per-node body of the connection pass (`newNodes.forEach`): one draw
for `connectionCount`, then the loop over the first `connectionCount`
candidates. -/
noncomputable def nodeEdges (width height : ℝ) (e : Env) (nodes : List BrainNode)
    (i : ℕ) (node : BrainNode) (k : ℕ) : List BrainConnection × ℕ :=
  let cc := connectionCount e k node.type
  let nearby := nearbyNodes nodes i node cc
  connectLoop width height e node cc (nearby.take cc) 0 (k + 1)

/-- The connection pass over all (indexed) nodes, threading the draw index. -/
noncomputable def edgesLoop (width height : ℝ) (e : Env) (nodes : List BrainNode) :
    List (ℕ × BrainNode) → ℕ → List BrainConnection × ℕ
  | [], k => ([], k)
  | (i, node) :: rest, k =>
    let r := nodeEdges width height e nodes i node k
    let r2 := edgesLoop width height e nodes rest r.2
    (r.1 ++ r2.1, r2.2)

/-- `generateBrainNetwork`: the node pass followed by the connection pass. -/
noncomputable def generate (width height : ℝ) (showLabels : Bool) (e : Env) :
    List BrainNode × List BrainConnection :=
  let ns := generateNodes width height e showLabels
  (ns.1, (edgesLoop width height e ns.1 ns.1.enum ns.2).1)

/-! ### The search submission flow (`searchWithOllama` in the home page) -/

/-- The `knowledge_graph` object of a search response. -/
structure KnowledgeGraph where
  summary : Option String
  nodes : List (String × String)
  insights : List String

/-- The UI state touched by `searchWithOllama` (React `useState` variables). -/
structure UIState where
  searchQuery : String
  showResults : Bool
  isLoading : Bool
  knowledgeGraph : Option KnowledgeGraph
  csvStartups : List String
  zoomTarget : Option (ℝ × ℝ)

/-- Outcome of the `fetch` to the search endpoint: success with the parsed
`knowledge_graph` field and (for the optional nested CSV lookup) the parsed
startup list, non-success HTTP status (`response.ok` false), or a thrown
network error.  CSV records are kept as opaque strings. -/
inductive SearchOutcome where
  | ok (data : Option KnowledgeGraph) (csv : Option (List String))
  | httpError
  | networkError

/-- The request issued by `searchWithOllama`. -/
structure SearchRequest where
  url : String
  method : String
  bodyQuery : String

/-- The one request the source builds: a fetch of
`http://localhost:8001/api/search` with method POST and the stringified
query as JSON body.  The URL is a string literal in the source; no
environment variable is consulted, which is why the environment-supplied
base URL below is ignored. -/
def searchRequest (_envApiUrl : Option String) (query : String) : SearchRequest :=
  { url := "http://localhost:8001/api/search", method := "POST",
    bodyQuery := query }

/-- Modelled from the spec: the request URL the spec describes, a configurable
base URL (environment-supplied, defaulting to the local address) concatenated
with `/api/search`. -/
def specRequestUrl (envApiUrl : Option String) : String :=
  envApiUrl.getD "http://localhost:8001" ++ "/api/search"

/-- `'energy'`/`'energia'` substring test on the lowercased state query
(`searchQuery.toLowerCase().includes(...)`). -/
def queryMentionsEnergy (q : String) : Bool :=
  ((q.toLower.splitOn "energy").length > 1) || ((q.toLower.splitOn "energia").length > 1)

/-- State transition of `searchWithOllama`, collapsed to its net effect: the
initial `setIsLoading(true)` is always superseded by the `finally` block that
clears the flag again.  On success the knowledge graph, the CSV list (only
for energy queries; a failed CSV lookup leaves it untouched, a non-energy
query clears it), a random zoom target and `showResults` are set; a non-ok
response or a thrown error only logs.  Returns the new state and the console
log entries. -/
noncomputable def searchWithOllama (s : UIState) (outcome : SearchOutcome)
    (width height r1 r2 : ℝ) : UIState × List String :=
  match outcome with
  | SearchOutcome.ok data csv =>
    let newCsvStartups :=
      if queryMentionsEnergy s.searchQuery then
        match csv with
        | some startups => startups
        | none => s.csvStartups
      else []
    let randomX := r1 * (width * 0.3) + width * 0.2
    let randomY := r2 * (height * 0.3) + height * 0.2
    let final : UIState :=
      { s with
        knowledgeGraph := data
        csvStartups := newCsvStartups
        zoomTarget := some (randomX, randomY)
        showResults := true
        isLoading := false }
    (final, [])
  | SearchOutcome.httpError => ({ s with isLoading := false }, ["Search failed"])
  | SearchOutcome.networkError =>
    ({ s with isLoading := false }, ["Error searching:"])

/-! ### Basic counting lemmas -/

lemma centralNodes_length (flag : Bool) : (centralNodes flag).length = 5 := by
  cases flag <;> rfl

lemma looseNodes_length (width height : ℝ) (e : Env) :
    ∀ (n i k : ℕ), ((looseNodes width height e i k n).1).length = n := by
  intro n
  induction n with
  | zero => intro i k; rfl
  | succ n ih => intro i k; simpa [looseNodes] using ih (i + 1) _

lemma nodeCount_ge (width height : ℝ) : 120 ≤ nodeCount width height := by
  unfold nodeCount
  have h1 : (120 : ℤ) ≤ min 180 (max 120 ⌊width * height / 4000⌋) :=
    le_min (by norm_num) (le_max_left _ _)
  omega

lemma nodeCount_le (width height : ℝ) : nodeCount width height ≤ 180 := by
  unfold nodeCount
  have h1 : min 180 (max 120 ⌊width * height / 4000⌋) ≤ 180 := min_le_left _ _
  omega

lemma nodeCount_800_600 : nodeCount 800 600 = 120 := by
  unfold nodeCount
  rw [show (800 * 600 / 4000 : ℝ) = ((120 : ℤ) : ℝ) by norm_num, Int.floor_intCast]
  omega

lemma generate_fst_length (width height : ℝ) (flag : Bool) (e : Env) :
    (generate width height flag e).1.length = nodeCount width height := by
  have h5 : 120 ≤ nodeCount width height := nodeCount_ge width height
  simp only [generate, generateNodes, hubNodes, List.length_append,
    List.length_mapIdx, centralNodes_length, looseNodes_length]
  omega

/-- C1: for every positive width and height, the layout generator produces a
total node count equal to `clamp(width*height / 4000, 120, 180)`; in
particular, for width 800 and height 600 the node count is exactly 120. -/
theorem claim_C1 (width height : ℝ) (flag : Bool) (e : Env)
    (hw : 0 < width) (hh : 0 < height) :
    (generate width height flag e).1.length
        = (min 180 (max 120 ⌊width * height / 4000⌋)).toNat ∧
      (generate 800 600 flag e).1.length = 120 := by
  refine ⟨generate_fst_length width height flag e, ?_⟩
  rw [generate_fst_length, nodeCount_800_600]

/-- Witness for C1 at width 800, height 600. -/
theorem claim_C1_witness :
    (generate 800 600 false ⟨fun _ => 1 / 2⟩).1.length
        = (min 180 (max 120 ⌊(800 : ℝ) * 600 / 4000⌋)).toNat ∧
      (generate 800 600 false ⟨fun _ => 1 / 2⟩).1.length = 120 :=
  claim_C1 800 600 false ⟨fun _ => 1 / 2⟩ (by norm_num) (by norm_num)

/-! ### Shape of the generated nodes -/

lemma mkLooseNode_type (width height : ℝ) (e : Env) (i k : ℕ) :
    (mkLooseNode width height e i k).1.type ≠ NodeType.main := by
  simp only [mkLooseNode]
  split <;> simp

lemma mkLooseNode_id (width height : ℝ) (e : Env) (i k : ℕ) :
    (mkLooseNode width height e i k).1.id = "node-" ++ toString i := rfl

lemma mkLooseNode_label (width height : ℝ) (e : Env) (i k : ℕ) :
    (mkLooseNode width height e i k).1.label = none := rfl

lemma looseNodes_mem_spec (width height : ℝ) (e : Env) :
    ∀ (n i k : ℕ), ∀ node ∈ (looseNodes width height e i k n).1,
      ∃ i' k', i ≤ i' ∧ i' < i + n ∧ node = (mkLooseNode width height e i' k').1 := by
  intro n
  induction n with
  | zero => intro i k node h; simp [looseNodes] at h
  | succ n ih =>
    intro i k node h
    simp only [looseNodes, List.mem_cons] at h
    rcases h with h | h
    · exact ⟨i, k, le_refl i, by omega, h⟩
    · obtain ⟨i', k', h1, h2, h3⟩ := ih (i + 1) _ node h
      exact ⟨i', k', by omega, by omega, h3⟩

lemma looseNodes_type (width height : ℝ) (e : Env) (n i k : ℕ) :
    ∀ node ∈ (looseNodes width height e i k n).1, node.type ≠ NodeType.main := by
  intro node h
  obtain ⟨i', k', -, -, h3⟩ := looseNodes_mem_spec width height e n i k node h
  rw [h3]
  exact mkLooseNode_type width height e i' k'

lemma looseNodes_ids (width height : ℝ) (e : Env) :
    ∀ (n i k : ℕ), ((looseNodes width height e i k n).1).map (fun node => node.id)
      = (List.range' i n).map (fun j => "node-" ++ toString j) := by
  intro n
  induction n with
  | zero => intro i k; rfl
  | succ n ih =>
    intro i k
    simp only [looseNodes, List.map_cons, List.range'_succ,
      mkLooseNode_id, ih (i + 1)]

lemma looseNodes_filter_main (width height : ℝ) (e : Env) (n i k : ℕ) :
    List.filter (fun node => decide (node.type = NodeType.main))
      (looseNodes width height e i k n).1 = [] :=
  List.filter_eq_nil_iff.mpr fun a ha => by
    simpa using looseNodes_type width height e n i k a ha

/-- C5: the generated layout contains exactly 5 hub (`main`) nodes, and their
labels are exactly the fixed vocabulary selected by the label-visibility
flag; with the flag false they are Mobility, Funding, Startups, Technology,
Europe. -/
theorem claim_C5 (width height : ℝ) (flag : Bool) (e : Env)
    (hw : 0 < width) (hh : 0 < height) :
    ((generate width height flag e).1.filter
        fun n => decide (n.type = NodeType.main)).length = 5 ∧
      ((generate width height flag e).1.filter
          fun n => decide (n.type = NodeType.main)).map (fun n => n.label)
        = if flag then
            [some "Mobility", some "Funding", some "Electric Vehicles",
             some "Startups", some "Europe"]
          else
            [some "Mobility", some "Funding", some "Startups",
             some "Technology", some "Europe"] := by
  cases flag <;>
    simp [generate, generateNodes, List.filter_append, looseNodes_filter_main,
      hubNodes, centralNodes, List.mapIdx_cons, List.filter, placeHub]

/-- Witness for C5 at width 800, height 600, flag false. -/
theorem claim_C5_witness :
    ((generate 800 600 false ⟨fun _ => 1 / 2⟩).1.filter
        fun n => decide (n.type = NodeType.main)).length = 5 ∧
      ((generate 800 600 false ⟨fun _ => 1 / 2⟩).1.filter
          fun n => decide (n.type = NodeType.main)).map (fun n => n.label)
        = if false then
            [some "Mobility", some "Funding", some "Electric Vehicles",
             some "Startups", some "Europe"]
          else
            [some "Mobility", some "Funding", some "Startups",
             some "Technology", some "Europe"] :=
  claim_C5 800 600 false ⟨fun _ => 1 / 2⟩ (by norm_num) (by norm_num)

/-! ### Uniqueness of node identifiers.

The synthetic identifiers are `node-` followed by the decimal representation
of the index; they are pairwise distinct because decimal representation is
injective (recovering the number by folding over the digit characters), and
they never collide with the hub identifiers, whose first character is not
`n`. -/

lemma toDigitsCore_append10 : ∀ (fuel n : ℕ) (acc : List Char),
    Nat.toDigitsCore 10 fuel n acc = Nat.toDigitsCore 10 fuel n [] ++ acc := by
  intro fuel
  induction fuel with
  | zero => intro n acc; rfl
  | succ f ih =>
    intro n acc
    simp only [Nat.toDigitsCore]
    split
    · rfl
    · rw [ih (n / 10) [Nat.digitChar (n % 10)],
        ih (n / 10) (Nat.digitChar (n % 10) :: acc), List.append_assoc]
      rfl

lemma digitChar_val : ∀ d : ℕ, d < 10 → (Nat.digitChar d).toNat - 48 = d := by
  decide

/-- Folding `10 * a + (digit - 48)` over the decimal digit characters of `n`
recovers `n`: decimal printing is injective. -/
lemma val_toDigitsCore : ∀ (fuel n : ℕ), n < fuel →
    (Nat.toDigitsCore 10 fuel n []).foldl (fun a c => 10 * a + (c.toNat - 48)) 0
      = n := by
  intro fuel
  induction fuel with
  | zero => omega
  | succ f ih =>
    intro n hn
    simp only [Nat.toDigitsCore]
    split
    · rename_i h0
      simp only [List.foldl_cons, List.foldl_nil]
      rw [digitChar_val (n % 10) (Nat.mod_lt n (by norm_num))]
      omega
    · rename_i h0
      rw [toDigitsCore_append10, List.foldl_append]
      have hlt : n / 10 < f := by
        have h10 : 10 ≤ n := by
          by_contra hc
          exact h0 (Nat.div_eq_of_lt (by omega))
        have := Nat.div_lt_self (by omega : 0 < n) (by norm_num : 1 < 10)
        omega
      rw [ih (n / 10) hlt]
      simp only [List.foldl_cons, List.foldl_nil]
      rw [digitChar_val (n % 10) (Nat.mod_lt n (by omega))]
      omega

lemma nodeId_inj' {x y : ℕ}
    (h : ("node-" ++ toString x : String) = "node-" ++ toString y) : x = y := by
  have hd := congrArg String.data h
  simp only [String.data_append] at hd
  have hd2 : Nat.toDigits 10 x = Nat.toDigits 10 y :=
    List.append_cancel_left hd
  have hv := congrArg
    (fun l : List Char => l.foldl (fun a c => 10 * a + (c.toNat - 48)) 0) hd2
  simpa [Nat.toDigits, val_toDigitsCore (x + 1) x (by omega),
    val_toDigitsCore (y + 1) y (by omega)] using hv

/-- A `node-i` identifier never equals a string whose first character is not
`n`. -/
lemma nodeId_ne_of_head (t : String) (c : Char) (cs : List Char)
    (hc : c ≠ 'n') : ("node-" ++ t : String) ≠ String.mk (c :: cs) := by
  intro h
  have hd := congrArg String.data h
  simp only [String.data_append] at hd
  have hd' : 'n' :: ("ode-".data ++ t.data) = c :: cs := hd
  injection hd' with h1 h2
  exact hc h1.symm

lemma nodeId_not_hub_false (j : ℕ) :
    ("node-" ++ toString j)
      ∉ (["mobility", "funding", "startups", "technology", "europe"] :
          List String) := by
  intro hmem
  simp only [List.mem_cons, List.not_mem_nil, or_false] at hmem
  rcases hmem with h | h | h | h | h
  · exact nodeId_ne_of_head (toString j) 'm' "obility".data (by decide) h
  · exact nodeId_ne_of_head (toString j) 'f' "unding".data (by decide) h
  · exact nodeId_ne_of_head (toString j) 's' "tartups".data (by decide) h
  · exact nodeId_ne_of_head (toString j) 't' "echnology".data (by decide) h
  · exact nodeId_ne_of_head (toString j) 'e' "urope".data (by decide) h

lemma nodeId_not_hub_true (j : ℕ) :
    ("node-" ++ toString j)
      ∉ (["mobility", "funding", "electric-vehicles", "startups", "europe"] :
          List String) := by
  intro hmem
  simp only [List.mem_cons, List.not_mem_nil, or_false] at hmem
  rcases hmem with h | h | h | h | h
  · exact nodeId_ne_of_head (toString j) 'm' "obility".data (by decide) h
  · exact nodeId_ne_of_head (toString j) 'f' "unding".data (by decide) h
  · exact nodeId_ne_of_head (toString j) 'e' "lectric-vehicles".data (by decide) h
  · exact nodeId_ne_of_head (toString j) 's' "tartups".data (by decide) h
  · exact nodeId_ne_of_head (toString j) 'e' "urope".data (by decide) h

lemma nodeIds_range_nodup (m : ℕ) :
    ((List.range' 5 m).map fun j => "node-" ++ toString j).Nodup :=
  List.Nodup.map (fun x y h => nodeId_inj' h) (List.nodup_range' _ _)

lemma generate_ids_false (width height : ℝ) (e : Env) :
    (generate width height false e).1.map (fun n => n.id)
      = ["mobility", "funding", "startups", "technology", "europe"]
        ++ (List.range' 5 (nodeCount width height - 5)).map
            (fun j => "node-" ++ toString j) := by
  simp [generate, generateNodes, hubNodes, centralNodes, List.mapIdx_cons,
    placeHub, looseNodes_ids]

lemma generate_ids_true (width height : ℝ) (e : Env) :
    (generate width height true e).1.map (fun n => n.id)
      = ["mobility", "funding", "electric-vehicles", "startups", "europe"]
        ++ (List.range' 5 (nodeCount width height - 5)).map
            (fun j => "node-" ++ toString j) := by
  simp [generate, generateNodes, hubNodes, centralNodes, List.mapIdx_cons,
    placeHub, looseNodes_ids]

lemma generate_ids_nodup (width height : ℝ) (flag : Bool) (e : Env) :
    ((generate width height flag e).1.map fun n => n.id).Nodup := by
  have hb : nodeCount width height ≤ 180 := nodeCount_le width height
  cases flag
  · rw [generate_ids_false]
    refine List.Nodup.append (by decide) (nodeIds_range_nodup _) ?_
    rw [List.disjoint_left]
    intro a ha hb'
    obtain ⟨j, hj, rfl⟩ := List.mem_map.mp hb'
    rw [List.mem_range'] at hj
    obtain ⟨ij, hij, rfl⟩ := hj
    exact nodeId_not_hub_false (5 + 1 * ij) ha
  · rw [generate_ids_true]
    refine List.Nodup.append (by decide) (nodeIds_range_nodup _) ?_
    rw [List.disjoint_left]
    intro a ha hb'
    obtain ⟨j, hj, rfl⟩ := List.mem_map.mp hb'
    rw [List.mem_range'] at hj
    obtain ⟨ij, hij, rfl⟩ := hj
    exact nodeId_not_hub_true (5 + 1 * ij) ha

/-- C9: node identifiers are unique within a generated layout: no two
distinct nodes, hub or non-hub, share an identifier string. -/
theorem claim_C9 (width height : ℝ) (flag : Bool) (e : Env) :
    ((generate width height flag e).1.map fun n => n.id).Nodup :=
  generate_ids_nodup width height flag e

/-! ### Shape of the generated edges -/

lemma connectLoop_mem (width height : ℝ) (e : Env) (node : BrainNode) (cc : ℕ) :
    ∀ (cands : List Candidate) (j k : ℕ),
      ∀ edge ∈ (connectLoop width height e node cc cands j k).1,
        ∃ c ∈ cands,
          edge.source = node.id ∧ edge.target = c.node.id ∧
            c.distance < maxDistanceFor width height node.type ∧
            edge.strength
              = max 0.2 (1 - c.distance / maxDistanceFor width height node.type) := by
  intro cands
  induction cands with
  | nil => intro j k edge h; simp [connectLoop] at h
  | cons c rest ih =>
    intro j k edge h
    simp only [connectLoop] at h
    split at h
    · split at h
      · simp only [List.mem_cons] at h
        rcases h with rfl | h
        · exact ⟨c, List.mem_cons_self c rest, rfl, rfl, by assumption, rfl⟩
        · obtain ⟨c', hc', hs⟩ := ih _ _ edge h
          exact ⟨c', List.mem_cons_of_mem _ hc', hs⟩
      · obtain ⟨c', hc', hs⟩ := ih _ _ edge h
        exact ⟨c', List.mem_cons_of_mem _ hc', hs⟩
    · obtain ⟨c', hc', hs⟩ := ih _ _ edge h
      exact ⟨c', List.mem_cons_of_mem _ hc', hs⟩

lemma nearby_mem_all (nodes : List BrainNode) (i : ℕ) (node : BrainNode) (cc : ℕ) :
    ∀ c ∈ nearbyNodes nodes i node cc, c ∈ allCandidates nodes i node := fun _ hc =>
  List.mem_mergeSort.mp (List.mem_of_mem_take hc)

lemma allCandidates_spec (nodes : List BrainNode) (i : ℕ) (node : BrainNode) :
    ∀ c ∈ allCandidates nodes i node,
      nodes[c.index]? = some c.node ∧ c.index ≠ i ∧
        c.distance = nodeDist node c.node := by
  intro c hc
  simp only [allCandidates, List.mem_filter, List.mem_map] at hc
  obtain ⟨⟨p, hp, rfl⟩, hne⟩ := hc
  refine ⟨List.mem_enum_iff_getElem?.mp hp, ?_, rfl⟩
  simpa using hne

lemma edgesLoop_mem (width height : ℝ) (e : Env) (nodes : List BrainNode) :
    ∀ (pairs : List (ℕ × BrainNode)) (k : ℕ),
      ∀ edge ∈ (edgesLoop width height e nodes pairs k).1,
        ∃ p ∈ pairs, ∃ k',
          edge ∈ (nodeEdges width height e nodes p.1 p.2 k').1 := by
  intro pairs
  induction pairs with
  | nil => intro k edge h; simp [edgesLoop] at h
  | cons p rest ih =>
    obtain ⟨i, node⟩ := p
    intro k edge h
    simp only [edgesLoop, List.mem_append] at h
    rcases h with h | h
    · exact ⟨(i, node), List.mem_cons_self _ rest, k, h⟩
    · obtain ⟨p', hp', k', h'⟩ := ih _ edge h
      exact ⟨p', List.mem_cons_of_mem _ hp', k', h'⟩

/-- Every generated edge comes from a source node at some index `i` and an
accepted candidate at a different index: the source id, target id, distance
test and strength formula are all as in the inner loop. -/
lemma generate_edge_spec (width height : ℝ) (flag : Bool) (e : Env) :
    ∀ edge ∈ (generate width height flag e).2,
      ∃ (i : ℕ) (node : BrainNode) (c : Candidate),
        ((generate width height flag e).1)[i]? = some node ∧
          ((generate width height flag e).1)[c.index]? = some c.node ∧
          c.index ≠ i ∧
          edge.source = node.id ∧ edge.target = c.node.id ∧
          c.distance = nodeDist node c.node ∧
          c.distance < maxDistanceFor width height node.type ∧
          edge.strength
            = max 0.2 (1 - c.distance / maxDistanceFor width height node.type) := by
  intro edge h
  simp only [generate] at h ⊢
  obtain ⟨p, hp, k', h'⟩ := edgesLoop_mem width height e _ _ _ edge h
  simp only [nodeEdges] at h'
  obtain ⟨c, hc, hsrc, htgt, hdist, hstr⟩ :=
    connectLoop_mem width height e p.2 _ _ _ _ edge h'
  have hc3 := nearby_mem_all _ p.1 p.2 _ c (List.mem_of_mem_take hc)
  obtain ⟨hidx, hne, hd⟩ := allCandidates_spec _ p.1 p.2 c hc3
  exact ⟨p.1, p.2, c, List.mem_enum_iff_getElem?.mp hp, hidx, hne, hsrc, htgt,
    hd, hdist, hstr⟩

/-- C6: every edge references two node identifiers that exist in the node
set. -/
theorem claim_C6 (width height : ℝ) (flag : Bool) (e : Env) :
    (generate width height flag e).2.Forall fun edge =>
      (∃ node ∈ (generate width height flag e).1, node.id = edge.source) ∧
        ∃ node ∈ (generate width height flag e).1, node.id = edge.target := by
  rw [List.forall_iff_forall_mem]
  intro edge h
  obtain ⟨i, node, c, hpi, hci, -, hsrc, htgt, -, -, -⟩ :=
    generate_edge_spec width height flag e edge h
  exact ⟨⟨node, List.getElem?_mem hpi, hsrc.symm⟩,
    ⟨c.node, List.getElem?_mem hci, htgt.symm⟩⟩

/-- C2: every generated edge joins nodes whose distance is below the source
node's type-dependent ceiling, its strength is `max 0.2 (1 - distance /
ceiling)`, and so every strength lies in `(0, 1]`. -/
theorem claim_C2 (width height : ℝ) (flag : Bool) (e : Env)
    (hw : 0 < width) (hh : 0 < height) :
    (generate width height flag e).2.Forall fun edge =>
      ∃ src ∈ (generate width height flag e).1,
        ∃ tgt ∈ (generate width height flag e).1,
          edge.source = src.id ∧ edge.target = tgt.id ∧
            nodeDist src tgt < maxDistanceFor width height src.type ∧
            edge.strength
              = max 0.2 (1 - nodeDist src tgt / maxDistanceFor width height src.type) ∧
            0 < edge.strength ∧ edge.strength ≤ 1 := by
  rw [List.forall_iff_forall_mem]
  intro edge h
  obtain ⟨i, node, c, hpi, hci, -, hsrc, htgt, hd, hdist, hstr⟩ :=
    generate_edge_spec width height flag e edge h
  have hmin : 0 < min width height := lt_min hw hh
  have hmax : 0 < maxDistanceFor width height node.type := by
    unfold maxDistanceFor; split <;> linarith
  have hd0 : 0 ≤ c.distance := by rw [hd]; exact Real.sqrt_nonneg _
  have hs1 : 0 < edge.strength := by
    rw [hstr]
    exact lt_of_lt_of_le (by norm_num) (le_max_left _ _)
  have hs2 : edge.strength ≤ 1 := by
    rw [hstr]
    refine max_le (by norm_num) ?_
    have : 0 ≤ c.distance / maxDistanceFor width height node.type :=
      div_nonneg hd0 hmax.le
    linarith
  exact ⟨node, List.getElem?_mem hpi, c.node, List.getElem?_mem hci, hsrc, htgt,
    hd ▸ hdist, hd ▸ hstr, hs1, hs2⟩

/-- Witness for C2 at width 800, height 600. -/
theorem claim_C2_witness :
    (generate 800 600 false ⟨fun _ => 1 / 2⟩).2.Forall fun edge =>
      ∃ src ∈ (generate 800 600 false ⟨fun _ => 1 / 2⟩).1,
        ∃ tgt ∈ (generate 800 600 false ⟨fun _ => 1 / 2⟩).1,
          edge.source = src.id ∧ edge.target = tgt.id ∧
            nodeDist src tgt < maxDistanceFor 800 600 src.type ∧
            edge.strength
              = max 0.2 (1 - nodeDist src tgt / maxDistanceFor 800 600 src.type) ∧
            0 < edge.strength ∧ edge.strength ≤ 1 :=
  claim_C2 800 600 false ⟨fun _ => 1 / 2⟩ (by norm_num) (by norm_num)

/-! ### The elliptical silhouette -/

lemma center_cancel (c rx A : ℝ) (hrx : rx ≠ 0) :
    (c + A * rx * 0.95 - c) / rx = A * 0.95 := by
  rw [show c + A * rx * 0.95 - c = A * 0.95 * rx from by ring]
  exact mul_div_cancel_right₀ _ hrx

lemma reflect_norm (nx ny : ℝ) (h : 1 < Real.sqrt (nx * nx + ny * ny)) :
    nx / Real.sqrt (nx * nx + ny * ny) * 0.95 *
        (nx / Real.sqrt (nx * nx + ny * ny) * 0.95) +
      ny / Real.sqrt (nx * nx + ny * ny) * 0.95 *
        (ny / Real.sqrt (nx * nx + ny * ny) * 0.95) = 0.9025 := by
  have hs : 0 ≤ nx * nx + ny * ny := by nlinarith [sq_nonneg nx, sq_nonneg ny]
  have hss := Real.mul_self_sqrt hs
  have hdne : Real.sqrt (nx * nx + ny * ny) ≠ 0 :=
    ne_of_gt (lt_trans zero_lt_one h)
  have hsne : nx * nx + ny * ny ≠ 0 := by
    intro h0
    exact hdne (by rw [h0, Real.sqrt_zero])
  have e1 : nx / Real.sqrt (nx * nx + ny * ny) * 0.95 *
        (nx / Real.sqrt (nx * nx + ny * ny) * 0.95) +
      ny / Real.sqrt (nx * nx + ny * ny) * 0.95 *
        (ny / Real.sqrt (nx * nx + ny * ny) * 0.95)
      = (nx * nx + ny * ny) * 0.9025 /
          (Real.sqrt (nx * nx + ny * ny) * Real.sqrt (nx * nx + ny * ny)) := by
    ring
  rw [e1, hss, mul_comm, mul_div_assoc, div_self hsne, mul_one]

/-- The clamp step always lands inside the ellipse: unchanged points were
already inside, reflected points land at `0.95` of the boundary. -/
lemma clampToEllipse_spec (width height x0 y0 : ℝ) (hw : 0 < width)
    (hh : 0 < height) :
    ellipseNorm width height (clampToEllipse width height x0 y0).1
      (clampToEllipse width height x0 y0).2 ≤ 1 := by
  have hrx : width * 0.32 ≠ 0 := by positivity
  have hry : height * 0.25 ≠ 0 := by positivity
  simp only [clampToEllipse, ellipseNorm]
  set nx := (x0 - width * 0.5) / (width * 0.32) with hnx
  set ny := (y0 - height * 0.3) / (height * 0.25) with hny
  split
  · rename_i hgt
    rw [center_cancel _ _ _ hrx, center_cancel _ _ _ hry, Real.sqrt_le_one,
      reflect_norm nx ny hgt]
    norm_num
  · rename_i hle
    exact not_lt.mp hle

lemma ellipseNorm_le_one_of_abs (width height x y : ℝ) (hw : 0 < width)
    (hh : 0 < height) (hx : |x - width * 0.5| ≤ 0.224 * width)
    (hy : |y - height * 0.3| ≤ 0.175 * height) :
    ellipseNorm width height x y ≤ 1 := by
  unfold ellipseNorm
  rw [Real.sqrt_le_one]
  have hwx : (0 : ℝ) < width * 0.32 := by linarith
  have hhy : (0 : ℝ) < height * 0.25 := by linarith
  have hnx : |(x - width * 0.5) / (width * 0.32)| ≤ 0.7 := by
    rw [abs_div, abs_of_pos hwx, div_le_iff₀ hwx]
    calc |x - width * 0.5| ≤ 0.224 * width := hx
      _ = 0.7 * (width * 0.32) := by ring
  have hny : |(y - height * 0.3) / (height * 0.25)| ≤ 0.7 := by
    rw [abs_div, abs_of_pos hhy, div_le_iff₀ hhy]
    calc |y - height * 0.3| ≤ 0.175 * height := hy
      _ = 0.7 * (height * 0.25) := by ring
  have h1 := mul_self_le_mul_self (abs_nonneg _) hnx
  have h2 := mul_self_le_mul_self (abs_nonneg _) hny
  rw [abs_mul_abs_self] at h1 h2
  nlinarith [h1, h2]

lemma abs_linear_bound {c t u A B : ℝ} (hc : |c| ≤ 1) (ht0 : 0 ≤ t) (htB : t ≤ B)
    (hu : |u| ≤ A) : |u + c * t| ≤ A + B := by
  have h1 : |c * t| ≤ t := by
    rw [abs_mul, abs_of_nonneg ht0]
    exact (mul_le_mul_of_nonneg_right hc ht0).trans_eq (one_mul t)
  calc |u + c * t| ≤ |u| + |c * t| := abs_add _ _
    _ ≤ A + B := by linarith

/-- Any point at a region center `(width*a, height*b)` plus a trig offset of
magnitude at most `0.3*sz*min(width,height)` stays inside the silhouette,
provided the center's offsets from the ellipse center fit within the slack. -/
lemma hub_region_in_ellipse (width height a b sz Ax Ay c s t : ℝ)
    (hw : 0 < width) (hh : 0 < height)
    (hc : |c| ≤ 1) (hs : |s| ≤ 1)
    (ht0 : 0 ≤ t) (htw : t ≤ 0.3 * sz * width) (hth : t ≤ 0.3 * sz * height)
    (hax : |width * a - width * 0.5| ≤ Ax * width)
    (hay : |height * b - height * 0.3| ≤ Ay * height)
    (hAx : Ax + 0.3 * sz ≤ 0.224) (hAy : Ay + 0.3 * sz ≤ 0.175) :
    ellipseNorm width height (width * a + c * t) (height * b + s * t) ≤ 1 := by
  apply ellipseNorm_le_one_of_abs width height _ _ hw hh
  · rw [show width * a + c * t - width * 0.5
      = (width * a - width * 0.5) + c * t from by ring]
    calc |(width * a - width * 0.5) + c * t|
        ≤ Ax * width + 0.3 * sz * width := abs_linear_bound hc ht0 htw hax
      _ = (Ax + 0.3 * sz) * width := by ring
      _ ≤ 0.224 * width := mul_le_mul_of_nonneg_right hAx hw.le
  · rw [show height * b + s * t - height * 0.3
      = (height * b - height * 0.3) + s * t from by ring]
    calc |(height * b - height * 0.3) + s * t|
        ≤ Ay * height + 0.3 * sz * height := abs_linear_bound hs ht0 hth hay
      _ = (Ay + 0.3 * sz) * height := by ring
      _ ≤ 0.175 * height := mul_le_mul_of_nonneg_right hAy hh.le

lemma dist_range (e : Env) (he : e.Valid) (width height sz : ℝ) (k : ℕ)
    (hw : 0 < width) (hh : 0 < height) (hsz : 0 ≤ sz) :
    0 ≤ e.rand (k + 1) * min width height * sz * 0.3 ∧
      e.rand (k + 1) * min width height * sz * 0.3 ≤ 0.3 * sz * width ∧
      e.rand (k + 1) * min width height * sz * 0.3 ≤ 0.3 * sz * height := by
  obtain ⟨hr0, hr1⟩ := he (k + 1)
  have hm0 : (0 : ℝ) ≤ min width height := le_min hw.le hh.le
  have hmw : min width height ≤ width := min_le_left _ _
  have hmh : min width height ≤ height := min_le_right _ _
  refine ⟨by positivity, ?_, ?_⟩ <;>
    nlinarith [mul_nonneg hr0 hm0, mul_nonneg (sub_nonneg.mpr hr1.le) hm0,
      mul_nonneg (mul_nonneg hr0 hm0) hsz,
      mul_nonneg (mul_nonneg (sub_nonneg.mpr hr1.le) hm0) hsz,
      mul_nonneg (mul_nonneg (sub_nonneg.mpr hmw) hr0) hsz,
      mul_nonneg (mul_nonneg (sub_nonneg.mpr hmh) hr0) hsz]

/-- Each of the five hub nodes is placed inside the elliptical silhouette:
its region center plus an offset of at most `0.3 * size * min(width,height)`
never leaves the ellipse. -/
lemma placeHub_in_ellipse (width height : ℝ) (e : Env) (hw : 0 < width)
    (hh : 0 < height) (he : e.Valid) (i k : ℕ) (p : String × String)
    (hi : i < 5) :
    ellipseNorm width height (placeHub width height e i p k).x
      (placeHub width height e i p k).y ≤ 1 := by
  interval_cases i
  · obtain ⟨ht0, htw, hth⟩ := dist_range e he width height 0.22 k hw hh (by norm_num)
    exact hub_region_in_ellipse width height 0.35 0.3 0.22 0.15 0 _ _ _ hw hh
      (Real.abs_cos_le_one _) (Real.abs_sin_le_one _) ht0 htw hth
      (by rw [show width * 0.35 - width * 0.5 = -(0.15 * width) from by ring,
        abs_neg, abs_of_nonneg (by linarith)])
      (by simp)
      (by norm_num) (by norm_num)
  · obtain ⟨ht0, htw, hth⟩ := dist_range e he width height 0.22 k hw hh (by norm_num)
    exact hub_region_in_ellipse width height 0.65 0.3 0.22 0.15 0 _ _ _ hw hh
      (Real.abs_cos_le_one _) (Real.abs_sin_le_one _) ht0 htw hth
      (by rw [show width * 0.65 - width * 0.5 = 0.15 * width from by ring,
        abs_of_nonneg (by linarith)])
      (by simp)
      (by norm_num) (by norm_num)
  · obtain ⟨ht0, htw, hth⟩ := dist_range e he width height 0.18 k hw hh (by norm_num)
    exact hub_region_in_ellipse width height 0.5 0.25 0.18 0 0.05 _ _ _ hw hh
      (Real.abs_cos_le_one _) (Real.abs_sin_le_one _) ht0 htw hth
      (by simp)
      (by rw [show height * 0.25 - height * 0.3 = -(0.05 * height) from by ring,
        abs_neg, abs_of_nonneg (by linarith)])
      (by norm_num) (by norm_num)
  · obtain ⟨ht0, htw, hth⟩ := dist_range e he width height 0.16 k hw hh (by norm_num)
    exact hub_region_in_ellipse width height 0.5 0.4 0.16 0 0.1 _ _ _ hw hh
      (Real.abs_cos_le_one _) (Real.abs_sin_le_one _) ht0 htw hth
      (by simp)
      (by rw [show height * 0.4 - height * 0.3 = 0.1 * height from by ring,
        abs_of_nonneg (by linarith)])
      (by norm_num) (by norm_num)
  · obtain ⟨ht0, htw, hth⟩ := dist_range e he width height 0.14 k hw hh (by norm_num)
    exact hub_region_in_ellipse width height 0.4 0.2 0.14 0.1 0.1 _ _ _ hw hh
      (Real.abs_cos_le_one _) (Real.abs_sin_le_one _) ht0 htw hth
      (by rw [show width * 0.4 - width * 0.5 = -(0.1 * width) from by ring,
        abs_neg, abs_of_nonneg (by linarith)])
      (by rw [show height * 0.2 - height * 0.3 = -(0.1 * height) from by ring,
        abs_neg, abs_of_nonneg (by linarith)])
      (by norm_num) (by norm_num)

lemma hubNodes_mem (width height : ℝ) (e : Env) (flag : Bool) :
    ∀ node ∈ hubNodes width height e flag,
      ∃ i p k, i < 5 ∧ node = placeHub width height e i p k := by
  intro node h
  cases flag <;>
    simp only [hubNodes, centralNodes, Bool.false_eq_true, if_false, if_true,
      List.mapIdx_cons, List.mapIdx_nil, List.mem_cons,
      List.not_mem_nil, or_false] at h <;>
    rcases h with rfl | rfl | rfl | rfl | rfl <;>
    exact ⟨_, _, _, by norm_num, rfl⟩

lemma mkLooseNode_x (width height : ℝ) (e : Env) (i k : ℕ) :
    (mkLooseNode width height e i k).1.x
      = (clampToEllipse width height (placeLoose width height e k).1
          (placeLoose width height e k).2.1).1 := rfl

lemma mkLooseNode_y (width height : ℝ) (e : Env) (i k : ℕ) :
    (mkLooseNode width height e i k).1.y
      = (clampToEllipse width height (placeLoose width height e k).1
          (placeLoose width height e k).2.1).2 := rfl

/-- C3: every node of a generated layout — hub nodes as well as clamped
non-hub nodes — lies within the configured elliptical silhouette: its
distance normalized to the ellipse is at most 1. -/
theorem claim_C3 (width height : ℝ) (flag : Bool) (e : Env)
    (hw : 0 < width) (hh : 0 < height) (he : e.Valid) :
    (generate width height flag e).1.Forall fun node =>
      ellipseNorm width height node.x node.y ≤ 1 := by
  rw [List.forall_iff_forall_mem]
  intro node hmem
  simp only [generate, generateNodes, List.mem_append] at hmem
  rcases hmem with hmem | hmem
  · obtain ⟨i, p, k, hi, rfl⟩ := hubNodes_mem width height e flag node hmem
    exact placeHub_in_ellipse width height e hw hh he i k p hi
  · obtain ⟨i', k', -, -, rfl⟩ :=
      looseNodes_mem_spec width height e _ _ _ node hmem
    rw [mkLooseNode_x, mkLooseNode_y]
    exact clampToEllipse_spec width height _ _ hw hh

/-- Witness for C3 at width 800, height 600 with the constant stream 1/2. -/
theorem claim_C3_witness :
    (generate 800 600 false ⟨fun _ => 1 / 2⟩).1.Forall fun node =>
      ellipseNorm 800 600 node.x node.y ≤ 1 :=
  claim_C3 800 600 false ⟨fun _ => 1 / 2⟩ (by norm_num) (by norm_num)
    (fun n => by constructor <;> norm_num)

/-- C10: the generator never creates a self-loop: the source and target
identifiers of every edge differ, because the candidate list excludes the
node's own index and identifiers at distinct indices are distinct. -/
theorem claim_C10 (width height : ℝ) (flag : Bool) (e : Env) :
    (generate width height flag e).2.Forall fun edge =>
      edge.source ≠ edge.target := by
  rw [List.forall_iff_forall_mem]
  intro edge h
  obtain ⟨i, node, c, hpi, hci, hne, hsrc, htgt, -, -, -⟩ :=
    generate_edge_spec width height flag e edge h
  rw [hsrc, htgt]
  intro hid
  obtain ⟨hi, hgi⟩ := List.getElem?_eq_some_iff.mp hpi
  obtain ⟨hc, hgc⟩ := List.getElem?_eq_some_iff.mp hci
  have hnodup := generate_ids_nodup width height flag e
  have hmi : i < ((generate width height flag e).1.map fun n => n.id).length := by
    simpa using hi
  have hmc : c.index
      < ((generate width height flag e).1.map fun n => n.id).length := by
    simpa using hc
  have heq : ((generate width height flag e).1.map fun n => n.id).get ⟨i, hmi⟩
      = ((generate width height flag e).1.map fun n => n.id).get ⟨c.index, hmc⟩ := by
    simp only [List.get_eq_getElem, List.getElem_map]
    rw [hgi, hgc, hid]
  have h2 : (⟨i, hmi⟩ : Fin _) = ⟨c.index, hmc⟩ := hnodup.get_inj_iff.mp heq
  have h3 : i = c.index := by simpa using h2
  exact hne h3.symm

/-! ### Candidate selection: the 2K nearest other nodes, ascending -/

lemma countP_bne_range (n i : ℕ) (h : i < n) :
    List.countP (fun j => j != i) (List.range n) = n - 1 := by
  induction n with
  | zero => omega
  | succ m ih =>
    rw [List.range_succ, List.countP_append, List.countP_cons, List.countP_nil]
    rcases Nat.lt_or_ge i m with hlt | hge
    · rw [ih hlt]
      have hb : (m != i) = true := bne_iff_ne.mpr (by omega)
      rw [hb]
      simp only [if_true]
      omega
    · have him : i = m := by omega
      subst him
      have hb : (i != i) = false := by simp
      rw [hb]
      have hall : List.countP (fun j => j != i) (List.range i) = i := by
        rw [List.countP_eq_length_filter, List.filter_eq_self.mpr,
          List.length_range]
        intro a ha
        simp only [List.mem_range] at ha
        exact bne_iff_ne.mpr (by omega)
      rw [hall]
      simp

lemma allCandidates_length (nodes : List BrainNode) (i : ℕ) (node : BrainNode)
    (hi : i < nodes.length) :
    (allCandidates nodes i node).length = nodes.length - 1 := by
  unfold allCandidates
  rw [List.filter_map, List.length_map, ← List.countP_eq_length_filter]
  have h2 := List.countP_map (fun j => j != i) Prod.fst nodes.enum
  rw [List.enum_map_fst] at h2
  calc List.countP _ nodes.enum
      = List.countP (fun j => j != i) (List.range nodes.length) := h2.symm
    _ = nodes.length - 1 := countP_bne_range _ _ hi

lemma nearbyNodes_length (nodes : List BrainNode) (i : ℕ) (node : BrainNode)
    (cc : ℕ) (hi : i < nodes.length) :
    (nearbyNodes nodes i node cc).length = min (cc * 2) (nodes.length - 1) := by
  unfold nearbyNodes
  rw [List.length_take, List.length_mergeSort,
    allCandidates_length nodes i node hi]

lemma cand_le_trans (a b c : Candidate)
    (h1 : decide (a.distance ≤ b.distance) = true)
    (h2 : decide (b.distance ≤ c.distance) = true) :
    decide (a.distance ≤ c.distance) = true := by
  simp only [decide_eq_true_eq] at h1 h2 ⊢
  exact le_trans h1 h2

lemma cand_le_total (a b : Candidate) :
    (decide (a.distance ≤ b.distance) || decide (b.distance ≤ a.distance))
      = true := by
  simp only [Bool.or_eq_true, decide_eq_true_eq]
  exact le_total _ _

lemma nearbyNodes_sorted (nodes : List BrainNode) (i : ℕ) (node : BrainNode)
    (cc : ℕ) :
    (nearbyNodes nodes i node cc).Pairwise
      fun a b => a.distance ≤ b.distance := by
  unfold nearbyNodes
  have hs := List.sorted_mergeSort cand_le_trans cand_le_total
    (allCandidates nodes i node)
  refine List.Pairwise.imp ?_ (List.Pairwise.sublist (List.take_sublist _ _) hs)
  intro a b hab
  exact of_decide_eq_true hab

lemma nearbyNodes_nearest (nodes : List BrainNode) (i : ℕ) (node : BrainNode)
    (cc : ℕ) :
    ∀ c ∈ nearbyNodes nodes i node cc, ∀ q ∈ allCandidates nodes i node,
      q ∉ nearbyNodes nodes i node cc → c.distance ≤ q.distance := by
  intro c hc q hq hqn
  unfold nearbyNodes at hc hqn
  have hqL : q ∈ (allCandidates nodes i node).mergeSort
      (fun a b => decide (a.distance ≤ b.distance)) := List.mem_mergeSort.mpr hq
  have hqdrop : q ∈ ((allCandidates nodes i node).mergeSort
      (fun a b => decide (a.distance ≤ b.distance))).drop (cc * 2) := by
    have h2 := List.take_append_drop (cc * 2)
      ((allCandidates nodes i node).mergeSort
        (fun a b => decide (a.distance ≤ b.distance)))
    rw [← h2] at hqL
    rcases List.mem_append.mp hqL with h3 | h3
    · exact absurd h3 hqn
    · exact h3
  have hsorted := List.sorted_mergeSort cand_le_trans cand_le_total
    (allCandidates nodes i node)
  rw [← List.take_append_drop (cc * 2) ((allCandidates nodes i node).mergeSort
    (fun a b => decide (a.distance ≤ b.distance)))] at hsorted
  have hpw := (List.pairwise_append.mp hsorted).2.2
  exact of_decide_eq_true (hpw c hc q hqdrop)

lemma connectionCount_main (e : Env) (he : e.Valid) (k : ℕ) :
    6 ≤ connectionCount e k NodeType.main ∧
      connectionCount e k NodeType.main ≤ 14 := by
  obtain ⟨hr0, hr1⟩ := he k
  unfold connectionCount
  rw [if_pos rfl]
  have h1 : (6 : ℤ) ≤ ⌊e.rand k * 8 + 6⌋ := by
    apply Int.le_floor.mpr
    push_cast
    nlinarith
  have h2 : ⌊e.rand k * 8 + 6⌋ < 14 := by
    apply Int.floor_lt.mpr
    push_cast
    nlinarith
  omega

lemma connectionCount_other (e : Env) (he : e.Valid) (k : ℕ) (t : NodeType)
    (ht : t ≠ NodeType.main) :
    3 ≤ connectionCount e k t ∧ connectionCount e k t ≤ 8 := by
  obtain ⟨hr0, hr1⟩ := he k
  unfold connectionCount
  rw [if_neg ht]
  have h1 : (3 : ℤ) ≤ ⌊e.rand k * 5 + 3⌋ := by
    apply Int.le_floor.mpr
    push_cast
    nlinarith
  have h2 : ⌊e.rand k * 5 + 3⌋ < 8 := by
    apply Int.floor_lt.mpr
    push_cast
    nlinarith
  omega

lemma acceptProb_antitone (t : NodeType) (cc j j' : ℕ) (hjj : j ≤ j') :
    acceptProb t cc j' ≤ acceptProb t cc j := by
  by_cases ht : t = NodeType.main
  · simp [acceptProb, ht]
  · simp only [acceptProb, if_neg ht]
    split_ifs with h1 h2
    · norm_num
    · exact absurd (lt_of_le_of_lt (Nat.cast_le.mpr hjj) h1) h2
    · norm_num
    · norm_num

lemma acceptProb_le_main (t : NodeType) (cc cc' j j' : ℕ) :
    acceptProb t cc j ≤ acceptProb NodeType.main cc' j' := by
  by_cases ht : t = NodeType.main
  · subst ht
    simp [acceptProb]
  · simp only [acceptProb, if_pos rfl, if_neg ht]
    split_ifs <;> norm_num

/-- C4: for every generated node, the edge candidates are the K nearest other
nodes by Euclidean distance with K twice the drawn connection count (target
6–14 for `main` nodes, 3–8 otherwise), held in ascending distance order, and
the rank-dependent acceptance probability never increases with rank and is
maximal (0.8) for `main` nodes. -/
theorem claim_C4 (width height : ℝ) (flag : Bool) (e : Env)
    (hw : 0 < width) (hh : 0 < height) (he : e.Valid) :
    (∀ k, 6 ≤ connectionCount e k NodeType.main ∧
      connectionCount e k NodeType.main ≤ 14) ∧
    (∀ k t, t ≠ NodeType.main →
      3 ≤ connectionCount e k t ∧ connectionCount e k t ≤ 8) ∧
    ((generate width height flag e).1.enum.Forall fun p => ∀ cc,
      (nearbyNodes (generate width height flag e).1 p.1 p.2 cc).length
          = min (cc * 2) ((generate width height flag e).1.length - 1) ∧
        (nearbyNodes (generate width height flag e).1 p.1 p.2 cc).Pairwise
          (fun a b => a.distance ≤ b.distance) ∧
        (∀ c ∈ nearbyNodes (generate width height flag e).1 p.1 p.2 cc,
          c.node ∈ (generate width height flag e).1 ∧ c.index ≠ p.1 ∧
            c.distance = nodeDist p.2 c.node) ∧
        ∀ c ∈ nearbyNodes (generate width height flag e).1 p.1 p.2 cc,
          ∀ q ∈ allCandidates (generate width height flag e).1 p.1 p.2,
            q ∉ nearbyNodes (generate width height flag e).1 p.1 p.2 cc →
              c.distance ≤ q.distance) ∧
    (∀ t cc j j', j ≤ j' → acceptProb t cc j' ≤ acceptProb t cc j) ∧
    (∀ t cc cc' j j', acceptProb t cc j ≤ acceptProb NodeType.main cc' j') := by
  refine ⟨fun k => connectionCount_main e he k,
    fun k t ht => connectionCount_other e he k t ht, ?_,
    fun t cc j j' h => acceptProb_antitone t cc j j' h,
    fun t cc cc' j j' => acceptProb_le_main t cc cc' j j'⟩
  rw [List.forall_iff_forall_mem]
  intro p hp cc
  have hi : p.1 < (generate width height flag e).1.length := by
    obtain ⟨h1, -⟩ := List.getElem?_eq_some_iff.mp
      (List.mem_enum_iff_getElem?.mp hp)
    exact h1
  refine ⟨nearbyNodes_length _ _ _ _ hi, nearbyNodes_sorted _ _ _ _, ?_,
    nearbyNodes_nearest _ _ _ _⟩
  intro c hc
  obtain ⟨hidx, hne, hd⟩ := allCandidates_spec _ _ _ c
    (nearby_mem_all _ _ _ _ c hc)
  exact ⟨List.getElem?_mem hidx, hne, hd⟩

/-- Witness for C4 at width 800, height 600 with the constant stream 1/2. -/
theorem claim_C4_witness :
    (∀ k, 6 ≤ connectionCount ⟨fun _ => 1 / 2⟩ k NodeType.main ∧
      connectionCount ⟨fun _ => 1 / 2⟩ k NodeType.main ≤ 14) ∧
    (∀ k t, t ≠ NodeType.main →
      3 ≤ connectionCount ⟨fun _ => 1 / 2⟩ k t ∧
        connectionCount ⟨fun _ => 1 / 2⟩ k t ≤ 8) ∧
    ((generate 800 600 false ⟨fun _ => 1 / 2⟩).1.enum.Forall fun p => ∀ cc,
      (nearbyNodes (generate 800 600 false ⟨fun _ => 1 / 2⟩).1 p.1 p.2 cc).length
          = min (cc * 2)
              ((generate 800 600 false ⟨fun _ => 1 / 2⟩).1.length - 1) ∧
        (nearbyNodes (generate 800 600 false ⟨fun _ => 1 / 2⟩).1 p.1 p.2
          cc).Pairwise (fun a b => a.distance ≤ b.distance) ∧
        (∀ c ∈ nearbyNodes (generate 800 600 false ⟨fun _ => 1 / 2⟩).1 p.1 p.2 cc,
          c.node ∈ (generate 800 600 false ⟨fun _ => 1 / 2⟩).1 ∧ c.index ≠ p.1 ∧
            c.distance = nodeDist p.2 c.node) ∧
        ∀ c ∈ nearbyNodes (generate 800 600 false ⟨fun _ => 1 / 2⟩).1 p.1 p.2 cc,
          ∀ q ∈ allCandidates (generate 800 600 false ⟨fun _ => 1 / 2⟩).1 p.1 p.2,
            q ∉ nearbyNodes (generate 800 600 false ⟨fun _ => 1 / 2⟩).1 p.1 p.2
                cc →
              c.distance ≤ q.distance) ∧
    (∀ t cc j j', j ≤ j' → acceptProb t cc j' ≤ acceptProb t cc j) ∧
    (∀ t cc cc' j j',
      acceptProb t cc j ≤ acceptProb NodeType.main cc' j') :=
  claim_C4 800 600 false ⟨fun _ => 1 / 2⟩ (by norm_num) (by norm_num)
    (fun n => by constructor <;> norm_num)

/-- C7: when the search HTTP call fails (network error or non-success
status), the error is logged, the loading indicator is cleared, and the
result-view state is otherwise unchanged — `showResults` and the stored
knowledge graph keep their previous values, and no error message is stored
anywhere in the UI state. -/
theorem claim_C7 (s : UIState) (outcome : SearchOutcome) (width height r1 r2 : ℝ)
    (hfail : outcome = SearchOutcome.httpError ∨
      outcome = SearchOutcome.networkError) :
    (searchWithOllama s outcome width height r1 r2).1
        = { s with isLoading := false } ∧
      (searchWithOllama s outcome width height r1 r2).1.showResults
        = s.showResults ∧
      (searchWithOllama s outcome width height r1 r2).1.knowledgeGraph
        = s.knowledgeGraph ∧
      (searchWithOllama s outcome width height r1 r2).1.isLoading = false ∧
      (searchWithOllama s outcome width height r1 r2).2 ≠ [] := by
  rcases hfail with h | h <;> subst h <;>
    exact ⟨rfl, rfl, rfl, rfl, by simp [searchWithOllama]⟩

/-- Witness for C7: an HTTP error on a fresh state. -/
theorem claim_C7_witness :
    (searchWithOllama ⟨"q", false, true, none, [], none⟩ SearchOutcome.httpError
          0 0 0 0).1
        = { searchQuery := "q", showResults := false, isLoading := false,
            knowledgeGraph := none, csvStartups := [], zoomTarget := none } ∧
      (searchWithOllama ⟨"q", false, true, none, [], none⟩ SearchOutcome.httpError
          0 0 0 0).1.showResults = false ∧
      (searchWithOllama ⟨"q", false, true, none, [], none⟩ SearchOutcome.httpError
          0 0 0 0).1.knowledgeGraph = none ∧
      (searchWithOllama ⟨"q", false, true, none, [], none⟩ SearchOutcome.httpError
          0 0 0 0).1.isLoading = false ∧
      (searchWithOllama ⟨"q", false, true, none, [], none⟩ SearchOutcome.httpError
          0 0 0 0).2 ≠ [] :=
  claim_C7 ⟨"q", false, true, none, [], none⟩ SearchOutcome.httpError 0 0 0 0
    (Or.inl rfl)

/-- C8: the search submission does POST with the query as body, but the URL is
the string literal `http://localhost:8001/api/search` and differs from the
spec's environment-configurable base URL whenever the environment supplies a
different base: the source never reads the environment. -/
theorem claim_C8 :
    (searchRequest (some "https://backend.example.com") "x").method = "POST" ∧
      (searchRequest (some "https://backend.example.com") "x").bodyQuery = "x" ∧
      (searchRequest (some "https://backend.example.com") "x").url
        = "http://localhost:8001/api/search" ∧
      (searchRequest (some "https://backend.example.com") "x").url
        ≠ specRequestUrl (some "https://backend.example.com") :=
  ⟨rfl, rfl, rfl, by decide⟩

end Brain
